import Mathlib

/-! Verification of the vnotes-v2 video-summarization pipeline
(`src/app/api/summarize/route.ts`) against its natural-language
specification.  The TypeScript route is shallowly embedded: the relevant
filesystem state becomes an explicit `FS` record, external tools and
services (ffmpeg, ffprobe, Whisper, chat completions) become a stub
record `Ext` describing their observable behaviour, and the `POST`/`GET`
handlers become pure functions returning a response, the updated state
and the chronological list of external invocations made.
-/

namespace VNotes

/-! Section: Frame sampling schedule (`extractFrames`, route.ts lines 90-103)

JavaScript numbers are IEEE doubles; the schedule arithmetic is embedded
over `ℚ`, with which the source formulas agree exactly. -/

/-- Source: `const MAX_FRAMES = 20` (route.ts line 78). -/
def MAX_FRAMES : ℕ := 20

/-- Source: `Math.min(MAX_FRAMES, Math.ceil(duration / 10))` (route.ts line 97). -/
def frameCount (duration : ℚ) : ℕ :=
  min MAX_FRAMES (Int.toNat ⌈duration / 10⌉)

/-- Source: `const interval = duration / frameCount` (route.ts line 98). -/
def interval (duration : ℚ) : ℚ := duration / (frameCount duration : ℚ)

/-- Source: `Math.min(interval * i + interval / 2, duration - 1)` (route.ts line 103). -/
def timestampAt (duration : ℚ) (i : ℕ) : ℚ :=
  min (interval duration * i + interval duration / 2) (duration - 1)

/-- The sequence of timestamps computed by the `for` loop of
`extractFrames`. -/
def schedule (duration : ℚ) : List ℚ :=
  (List.range (frameCount duration)).map (timestampAt duration)

/-! Section: Filenames

`frame_${String(i).padStart(3, "0")}.txt` (route.ts lines 104-109). -/

/-- Source: `String(i).padStart(3, "0")`. -/
def pad3 (i : ℕ) : String :=
  let s := toString i
  String.mk (List.replicate (3 - s.length) '0') ++ s

/-- The name of the persisted base64 text file for ordinal `i`. -/
def frameName (i : ℕ) : String := "frame_" ++ pad3 i ++ ".txt"

/-- JavaScript `f.endsWith(".txt")`: suffix test on the code units. -/
def endsWithTxt (s : String) : Bool :=
  ".txt".data.isSuffixOf s.data

/-- JavaScript default `Array.prototype.sort()` comparator on strings:
lexicographic comparison of code units, here `≤` on the character
lists. -/
def charsLe : List Char → List Char → Bool
  | [], _ => true
  | _ :: _, [] => false
  | a :: as, b :: bs =>
    decide (a.toNat < b.toNat) ||
      (decide (a.toNat = b.toNat) && charsLe as bs)

/-- The string order used when reloading cached frames. -/
def jsLe (a b : String) : Prop := charsLe a.data b.data = true

instance : DecidableRel jsLe :=
  fun a b => inferInstanceAs (Decidable (charsLe a.data b.data = true))

/-! Section: Filesystem and external-world model -/

/-- The per-video slice of the filesystem the route touches:
`public/videos/<id>.mp4` presence, the configured OpenAI key
(`.vnotes/keys.json`), `public/audio/<id>.mp3` presence,
`public/transcripts/<id>.txt` content, and the listing of
`public/frames/<id>/` as (filename, content) pairs (`none` while the
directory does not exist). -/
structure FS where
  videoExists : Bool
  apiKey : Option String
  audioExists : Bool
  transcript : Option String
  framesDir : Option (List (String × String))
deriving DecidableEq

/-- Observable behaviour of the external tools and services, fixed for a
run: ffmpeg audio extraction exit status and whether it leaves an output
file, ffprobe exit status and the duration it reports, per-ordinal
ffmpeg frame-extraction exit status and whether a frame file appears,
the base64 payload of each extracted frame, and the outcomes of the four
OpenAI calls. -/
structure Ext where
  audioExitOk : Bool
  audioProduced : Bool
  probeOk : Bool
  duration : ℚ
  frameExitOk : ℕ → Bool
  frameProduced : ℕ → Bool
  frameData : ℕ → String
  transcribeOk : Bool
  transcribeText : String
  visionOk : Bool
  visionText : String
  audioSumOk : Bool
  audioSumText : String
  finalOk : Bool
  finalText : String

/-- One part of the multimodal message content sent to the vision call
(route.ts lines 175-199). -/
inductive ContentPart
  | text (s : String)
  | image (url : String)
deriving DecidableEq

/-- An external invocation made during a request, in chronological
order. -/
inductive ExtCall
  | ffmpegAudio
  | ffprobe
  | ffmpegFrame (i : ℕ) (t : ℚ)
  | whisper
  | chatVision (parts : List ContentPart)
  | chatAudio (transcript : String)
  | chatFinal (visual audio : String)
deriving DecidableEq

/-- Error kinds of the route, with the HTTP status the code attaches. -/
inductive ErrKind
  | invalidInput
  | notFound
  | unconfigured
  | internal (msg : String)
deriving DecidableEq

/-- HTTP status codes returned by the route for each error kind. -/
def ErrKind.statusCode : ErrKind → ℕ
  | .invalidInput => 400
  | .notFound => 404
  | .unconfigured => 400
  | .internal _ => 500

/-- The JSON body of a successful `POST` (route.ts lines 372-384). -/
structure OkData where
  videoId : String
  summary : String
  visualSummary : String
  audioSummary : String
  frameCount : ℕ
  cachedAudio : Bool
  cachedFrames : Bool
  cachedTranscript : Bool
deriving DecidableEq

/-- A `POST` response. -/
inductive Response
  | ok (d : OkData)
  | err (kind : ErrKind)
deriving DecidableEq

/-- The per-stage cache-hit flags of a successful response. -/
def Response.cacheFlags : Response → Option (Bool × Bool × Bool)
  | .ok d => some (d.cachedAudio, d.cachedFrames, d.cachedTranscript)
  | .err _ => none

/-- Error messages surfaced by the catch-all handler (route.ts lines
385-396); the concrete strings stand for the corresponding runtime
messages and are pairwise distinct. -/
def audioFailMsg : String := "Command failed: ffmpeg audio extraction"

/-- Message when `fs.createReadStream` finds no audio file (route.ts
line 150). -/
def enoentMsg : String := "ENOENT: no such file or directory, audio"

/-- Message when the Whisper call rejects (route.ts line 152). -/
def whisperFailMsg : String := "transcription service failed"

/-- Message when ffprobe or a per-frame ffmpeg invocation exits
non-zero (route.ts lines 91, 112). -/
def frameFailMsg : String := "Command failed: ffmpeg frame extraction"

/-- Message when the vision completion call rejects. -/
def visionFailMsg : String := "visual summary service failed"

/-- Message when the transcript completion call rejects. -/
def audioSumFailMsg : String := "audio summary service failed"

/-- Message when the consolidation completion call rejects. -/
def finalFailMsg : String := "final summary service failed"

/-! Section: checkCachedData (route.ts lines 41-63) -/

/-- The three cache-presence flags `checkCachedData` returns. -/
structure Cached where
  hasAudio : Bool
  hasFrames : Bool
  hasTranscript : Bool
deriving DecidableEq

/-- Embedding of `checkCachedData`: audio by file existence, frames by directory
existence plus at least one `.txt` entry, transcript by file
existence. -/
def checkCachedData (fs : FS) : Cached where
  hasAudio := fs.audioExists
  hasFrames :=
    match fs.framesDir with
    | none => false
    | some d => d.any (fun p => endsWithTxt p.1)
  hasTranscript := fs.transcript.isSome

/-! Section: Frame extraction (route.ts lines 81-129) -/

/-- Embedding of `fs.writeFileSync`: replace the entry if the name exists, otherwise
append it. -/
def dirWrite (d : List (String × String)) (name content : String) :
    List (String × String) :=
  if d.any (fun p => p.1 == name) then
    d.map (fun p => if p.1 == name then (name, content) else p)
  else d ++ [(name, content)]

/-- The body of the `for` loop of `extractFrames`, processing ordinals
`i, i+1, …, i+k-1`: invoke ffmpeg at the scheduled timestamp (a
non-zero exit aborts the whole request), and if a frame file appeared,
record its base64 payload both in the returned list and as a `.txt`
entry in the directory; otherwise skip silently.  Returns
(completed-normally, frames, directory, calls). -/
def framesGo (ext : Ext) :
    ℕ → ℕ → List String → List (String × String) →
    Bool × List String × List (String × String) × List ExtCall
  | _, 0, acc, dir => (true, acc, dir, [])
  | i, k + 1, acc, dir =>
    if ext.frameExitOk i then
      if ext.frameProduced i then
        let r := framesGo ext (i + 1) k (acc ++ [ext.frameData i])
          (dirWrite dir (frameName i) (ext.frameData i))
        (r.1, r.2.1, r.2.2.1,
          .ffmpegFrame i (timestampAt ext.duration i) :: r.2.2.2)
      else
        let r := framesGo ext (i + 1) k acc dir
        (r.1, r.2.1, r.2.2.1,
          .ffmpegFrame i (timestampAt ext.duration i) :: r.2.2.2)
    else (false, acc, dir, [.ffmpegFrame i (timestampAt ext.duration i)])

/-- Embedding of `extractFrames`: create the directory if needed, probe the duration
(a probe failure aborts), then run the sampling loop over the
schedule. -/
def extractFrames (ext : Ext) (dir0 : List (String × String)) :
    Bool × List String × List (String × String) × List ExtCall :=
  if ext.probeOk then
    let r := framesGo ext 0 (frameCount ext.duration) [] dir0
    (r.1, r.2.1, r.2.2.1, .ffprobe :: r.2.2.2)
  else (false, [], dir0, [.ffprobe])

/-- Embedding of `loadCachedFrames` (route.ts lines 132-140): list the directory,
keep `.txt` names, sort them (JavaScript default string sort), and read
each file. -/
def loadCachedFrames (d : List (String × String)) : List String :=
  let names := List.insertionSort jsLe ((d.map Prod.fst).filter endsWithTxt)
  names.map (fun n => (((d.find? (fun p => p.1 == n))).map Prod.snd).getD "")

/-! Section: Vision summarizer content (route.ts lines 169-208) -/

/-- The instruction text pushed first into the vision call content. -/
def visionPromptText : String :=
  "You are analyzing frames extracted from a video at regular intervals throughout its duration. Based solely on these visual frames, provide a summary of what you observe."

/-- The content array sent to the multimodal completion: the instruction
text followed by one image part per frame of `frames.slice(0, 10)`
(route.ts lines 190-199). -/
def visualContent (frames : List String) : List ContentPart :=
  ContentPart.text visionPromptText ::
    (frames.take 10).map
      (fun frame => ContentPart.image ("data:image/jpeg;base64," ++ frame))

/-! Section: The POST pipeline (route.ts lines 300-397)

The handler is split at its `await` points into stage functions; each
returns the response, the final filesystem state, and the chronological
call trace. -/

/-- Summarization stages (route.ts lines 280-298, 368-384): vision call,
then transcript call, then consolidation, then the success response
carrying the cache flags observed at the start of the request. -/
def afterFrames (videoId : String) (fs : FS) (ext : Ext) (cached : Cached)
    (transcript : String) (frames : List String) (calls : List ExtCall) :
    Response × FS × List ExtCall :=
  let calls1 := calls ++ [.chatVision (visualContent frames)]
  if ext.visionOk then
    let calls2 := calls1 ++ [.chatAudio transcript]
    if ext.audioSumOk then
      let calls3 := calls2 ++ [.chatFinal ext.visionText ext.audioSumText]
      if ext.finalOk then
        (.ok
          { videoId := videoId
            summary := ext.finalText
            visualSummary := ext.visionText
            audioSummary := ext.audioSumText
            frameCount := frames.length
            cachedAudio := cached.hasAudio
            cachedFrames := cached.hasFrames
            cachedTranscript := cached.hasTranscript }, fs, calls3)
      else (.err (.internal finalFailMsg), fs, calls3)
    else (.err (.internal audioSumFailMsg), fs, calls2)
  else (.err (.internal visionFailMsg), fs, calls1)

/-- Frames stage (route.ts lines 358-366): load the cached frame set, or
run `extractFrames` and persist the (possibly partial) directory. -/
def framesStage (videoId : String) (fs : FS) (ext : Ext) (cached : Cached)
    (transcript : String) (calls : List ExtCall) :
    Response × FS × List ExtCall :=
  if cached.hasFrames then
    afterFrames videoId fs ext cached transcript
      (loadCachedFrames (fs.framesDir.getD [])) calls
  else
    let r := extractFrames ext (fs.framesDir.getD [])
    let fs1 := { fs with framesDir := some r.2.2.1 }
    if r.1 then
      afterFrames videoId fs1 ext cached transcript r.2.1 (calls ++ r.2.2.2)
    else (.err (.internal frameFailMsg), fs1, calls ++ r.2.2.2)

/-- Transcript stage (route.ts lines 344-356): load the cached
transcript, else stream the audio file (missing file surfaces here) into
the Whisper call and persist its text. -/
def transcriptStage (videoId : String) (fs : FS) (ext : Ext)
    (cached : Cached) (calls : List ExtCall) :
    Response × FS × List ExtCall :=
  if cached.hasTranscript then
    framesStage videoId fs ext cached (fs.transcript.getD "") calls
  else
    if fs.audioExists then
      if ext.transcribeOk then
        framesStage videoId { fs with transcript := some ext.transcribeText }
          ext cached ext.transcribeText (calls ++ [.whisper])
      else (.err (.internal whisperFailMsg), fs, calls ++ [.whisper])
    else (.err (.internal enoentMsg), fs, calls)

/-- Audio stage and onwards (route.ts lines 333-342): skip extraction
when cached, else invoke ffmpeg, which leaves an output file iff the
tool produced one and aborts the request on a non-zero exit. -/
def runPipeline (videoId : String) (fs : FS) (ext : Ext) :
    Response × FS × List ExtCall :=
  let cached := checkCachedData fs
  if cached.hasAudio then
    transcriptStage videoId fs ext cached []
  else
    let fs1 := { fs with audioExists := ext.audioProduced }
    if ext.audioExitOk then
      transcriptStage videoId fs1 ext cached [.ffmpegAudio]
    else (.err (.internal audioFailMsg), fs1, [.ffmpegAudio])

/-- The `POST` handler (route.ts lines 300-397): missing/empty videoId,
missing source video and missing API key are rejected, in that order,
before any stage work. -/
def POST (videoId : String) (fs : FS) (ext : Ext) :
    Response × FS × List ExtCall :=
  if videoId = "" then (.err .invalidInput, fs, [])
  else if fs.videoExists then
    match fs.apiKey with
    | none => (.err .unconfigured, fs, [])
    | some _ => runPipeline videoId fs ext
  else (.err .notFound, fs, [])

/-- A `GET` response (route.ts lines 400-430). -/
inductive GetResponse
  | err (kind : ErrKind)
  | ok (videoId : String) (videoExists : Bool)
      (hasAudio hasFrames hasTranscript : Bool)
      (audioPath framesPath transcriptPath : Option String)
deriving DecidableEq

/-- The `GET` handler: reports source-video presence and the cached
artifacts without triggering any work. -/
def GET (videoId : String) (fs : FS) : GetResponse :=
  if videoId = "" then .err .invalidInput
  else
    let cached := checkCachedData fs
    .ok videoId fs.videoExists cached.hasAudio cached.hasFrames
      cached.hasTranscript
      (if cached.hasAudio then some ("/audio/" ++ videoId ++ ".mp3") else none)
      (if cached.hasFrames then some ("/frames/" ++ videoId) else none)
      (if cached.hasTranscript then
        some ("/transcripts/" ++ videoId ++ ".txt") else none)

end VNotes

namespace VNotes

/-! Section: Basic schedule lemmas -/

theorem frameCount_le (duration : ℚ) : frameCount duration ≤ 20 :=
  min_le_left _ _

theorem ceil_div_ten_pos {D : ℚ} (hD : 0 < D) : 0 < ⌈D / 10⌉ := by
  positivity

theorem frameCount_pos {D : ℚ} (hD : 0 < D) : 0 < frameCount D := by
  have h := ceil_div_ten_pos hD
  simp only [frameCount, MAX_FRAMES, lt_min_iff]
  omega

theorem frameCount_95 : frameCount 95 = 10 := by
  have h : ⌈(95 : ℚ) / 10⌉ = 10 := by
    rw [Int.ceil_eq_iff] <;> norm_num
  simp [frameCount, MAX_FRAMES, h]

theorem frameCount_5 : frameCount 5 = 1 := by
  have h : ⌈(5 : ℚ) / 10⌉ = 1 := by
    rw [Int.ceil_eq_iff] <;> norm_num
  simp [frameCount, MAX_FRAMES, h]

theorem schedule_length (duration : ℚ) :
    (schedule duration).length = frameCount duration := by
  simp [schedule]

theorem schedule_get (duration : ℚ) (i : ℕ)
    (h : i < (schedule duration).length) :
    (schedule duration).get ⟨i, h⟩ = timestampAt duration i := by
  simp [schedule]

/-- Claim C1: for every duration `D > 0` the sampler computes
`frameCount = min(20, ceil(D/10))` timestamps, the i-th being
`min(i*(D/frameCount) + (D/frameCount)/2, D - 1)`; for `D = 95` it
yields 10 timestamps `i*9.5 + 4.75`, each at most 94, and for `D = 5` a
single timestamp at most 4. -/
theorem frame_schedule_spec (D : ℚ) (hD : 0 < D) :
    (((schedule D).length : ℤ) = min 20 ⌈D / 10⌉ ∧
      ∀ i (h : i < (schedule D).length),
        (schedule D).get ⟨i, h⟩ =
          min ((i : ℚ) * (D / ((schedule D).length : ℚ)) +
            (D / ((schedule D).length : ℚ)) / 2) (D - 1)) ∧
    ((schedule 95).length = 10 ∧
      ∀ i (h : i < (schedule 95).length),
        (schedule 95).get ⟨i, h⟩ = (i : ℚ) * 9.5 + 4.75 ∧
          (schedule 95).get ⟨i, h⟩ ≤ 94) ∧
    ((schedule 5).length = 1 ∧
      ∀ i (h : i < (schedule 5).length), (schedule 5).get ⟨i, h⟩ ≤ 4) := by
  refine ⟨⟨?_, ?_⟩, ⟨?_, ?_⟩, ?_, ?_⟩
  · rw [schedule_length]
    have h := ceil_div_ten_pos hD
    simp only [frameCount, MAX_FRAMES]
    omega
  · intro i h
    rw [schedule_get]
    rw [schedule_length]
    simp only [timestampAt, interval]
    ring_nf
  · rw [schedule_length, frameCount_95]
  · intro i h
    have hi : i < 10 := by
      rw [schedule_length, frameCount_95] at h
      exact h
    have hiq : (i : ℚ) ≤ 9 := by exact_mod_cast Nat.lt_succ_iff.mp hi
    rw [schedule_get]
    have hint : interval 95 = 19 / 2 := by
      simp [interval, frameCount_95]
      norm_num
    constructor
    · simp only [timestampAt, hint]
      rw [min_eq_left (by nlinarith)]
      norm_num
      ring
    · simp only [timestampAt, hint]
      have : min ((19 : ℚ) / 2 * i + 19 / 2 / 2) (95 - 1) ≤ 95 - 1 :=
        min_le_right _ _
      calc min ((19 : ℚ) / 2 * ↑i + 19 / 2 / 2) (95 - 1) ≤ 95 - 1 := this
        _ ≤ 94 := by norm_num
  · rw [schedule_length, frameCount_5]
  · intro i h
    have hi : i = 0 := by
      rw [schedule_length, frameCount_5] at h
      omega
    subst hi
    rw [schedule_get]
    have hint : interval 5 = 5 := by
      simp [interval, frameCount_5]
    simp only [timestampAt, hint]
    have : min ((5 : ℚ) * (0 : ℕ) + 5 / 2) (5 - 1) ≤ 5 - 1 := min_le_right _ _
    calc min ((5 : ℚ) * ((0 : ℕ) : ℚ) + 5 / 2) (5 - 1) ≤ 5 - 1 := min_le_right _ _
      _ ≤ 4 := by norm_num

/-- Witness for C1 at `D = 95`. -/
theorem frame_schedule_spec_witness :
    (0 : ℚ) < 95 ∧ (schedule 95).length = 10 :=
  ⟨by norm_num, (frame_schedule_spec 95 (by norm_num)).2.1.1⟩

end VNotes

namespace VNotes

/-! Section: Characterizing the sampling loop -/

/-- The ordinals in `[i, i+k)` whose frame extraction produced a file. -/
def producedIdx (ext : Ext) : ℕ → ℕ → List ℕ
  | _, 0 => []
  | i, k + 1 =>
    (if ext.frameProduced i then [i] else []) ++ producedIdx ext (i + 1) k

/-- The ffmpeg invocations of the sampling loop over `[i, i+k)`. -/
def frameCalls (ext : Ext) : ℕ → ℕ → List ExtCall
  | _, 0 => []
  | i, k + 1 =>
    .ffmpegFrame i (timestampAt ext.duration i) :: frameCalls ext (i + 1) k

theorem producedIdx_mem (ext : Ext) :
    ∀ k i x, x ∈ producedIdx ext i k → i ≤ x ∧ x < i + k := by
  intro k
  induction k with
  | zero => intro i x hx; simp [producedIdx] at hx
  | succ k ih =>
    intro i x hx
    simp only [producedIdx, List.mem_append] at hx
    rcases hx with hx | hx
    · rcases Bool.eq_false_or_eq_true (ext.frameProduced i) with hp | hp <;>
        simp [hp] at hx
      omega
    · have := ih (i + 1) x hx
      omega

theorem producedIdx_pairwise (ext : Ext) :
    ∀ k i, (producedIdx ext i k).Pairwise (· < ·) := by
  intro k
  induction k with
  | zero => intro i; simp [producedIdx]
  | succ k ih =>
    intro i
    simp only [producedIdx]
    rw [List.pairwise_append]
    refine ⟨?_, ih (i + 1), ?_⟩
    · rcases Bool.eq_false_or_eq_true (ext.frameProduced i) with hp | hp <;>
        simp [hp]
    · intro a ha b hb
      rcases Bool.eq_false_or_eq_true (ext.frameProduced i) with hp | hp <;>
        simp [hp] at ha
      have := producedIdx_mem ext k (i + 1) b hb
      omega

theorem producedIdx_eq_filter (ext : Ext) :
    ∀ k i, producedIdx ext i k =
      (List.range' i k).filter (fun j => ext.frameProduced j) := by
  intro k
  induction k with
  | zero => intro i; simp [producedIdx]
  | succ k ih =>
    intro i
    rw [producedIdx, List.range'_succ, List.filter_cons, ih (i + 1)]
    rcases Bool.eq_false_or_eq_true (ext.frameProduced i) with hp | hp <;>
      simp [hp]

theorem producedIdx_of_all (ext : Ext)
    (hfp : ∀ j, ext.frameProduced j = true) :
    ∀ k i, producedIdx ext i k = List.range' i k := by
  intro k
  induction k with
  | zero => intro i; simp [producedIdx]
  | succ k ih =>
    intro i
    rw [producedIdx, List.range'_succ, hfp i, ih (i + 1)]
    simp

/-! Facts about `frameName` on ordinals below 20, settled by
computation. -/

theorem frameName_endsWithTxt20 :
    ∀ a : Fin 20, endsWithTxt (frameName a.1) = true := by decide

theorem frameName_mono20 :
    ∀ a b : Fin 20, a.1 < b.1 →
      charsLe (frameName a.1).data (frameName b.1).data = true := by decide

theorem frameName_inj20 :
    ∀ a b : Fin 20, frameName a.1 = frameName b.1 → a = b := by decide

theorem frameName_endsWithTxt {i : ℕ} (h : i < 20) :
    endsWithTxt (frameName i) = true :=
  frameName_endsWithTxt20 ⟨i, h⟩

theorem frameName_le {a b : ℕ} (hab : a < b) (hb : b < 20) :
    jsLe (frameName a) (frameName b) :=
  frameName_mono20 ⟨a, Nat.lt_trans hab hb⟩ ⟨b, hb⟩ hab

theorem frameName_inj {a b : ℕ} (ha : a < 20) (hb : b < 20)
    (h : frameName a = frameName b) : a = b := by
  have := frameName_inj20 ⟨a, ha⟩ ⟨b, hb⟩ h
  exact congrArg Fin.val this

theorem dirWrite_of_not_mem {d : List (String × String)} {name : String}
    (h : name ∉ d.map Prod.fst) (content : String) :
    dirWrite d name content = d ++ [(name, content)] := by
  rw [dirWrite, if_neg]
  intro hc
  rw [List.any_eq_true] at hc
  obtain ⟨p, hp, hpe⟩ := hc
  rw [beq_iff_eq] at hpe
  exact h (hpe ▸ List.mem_map_of_mem Prod.fst hp)

/-- Full characterization of the sampling loop when every per-frame
ffmpeg invocation exits zero: the pass completes, returns exactly the
payloads of the produced ordinals in order, and appends one `.txt` entry
per produced ordinal to the directory. -/
theorem framesGo_spec (ext : Ext) (hex : ∀ j, ext.frameExitOk j = true) :
    ∀ k i acc dir, i + k ≤ 20 →
      (∀ j, i ≤ j → j < i + k → frameName j ∉ dir.map Prod.fst) →
      framesGo ext i k acc dir =
        (true, acc ++ (producedIdx ext i k).map ext.frameData,
          dir ++ (producedIdx ext i k).map
            (fun j => (frameName j, ext.frameData j)),
          frameCalls ext i k) := by
  intro k
  induction k with
  | zero =>
    intro i acc dir _ _
    simp [framesGo, producedIdx, frameCalls]
  | succ k ih =>
    intro i acc dir hk hnot
    rw [framesGo, hex i, if_pos rfl]
    rcases Bool.eq_false_or_eq_true (ext.frameProduced i) with hp | hp
    · rw [hp, if_pos rfl]
      rw [dirWrite_of_not_mem (hnot i le_rfl (by omega)) _]
      rw [ih (i + 1) (acc ++ [ext.frameData i])
        (dir ++ [(frameName i, ext.frameData i)]) (by omega) ?_]
      · simp [producedIdx, frameCalls, hp]
      · intro j h1 h2
        simp only [List.map_append, List.mem_append, List.map_cons,
          List.map_nil, List.mem_singleton, not_or]
        refine ⟨hnot j (by omega) (by omega), ?_⟩
        intro hc
        have := frameName_inj (a := j) (b := i) (by omega) (by omega) hc
        omega
    · rw [hp]
      simp only [Bool.false_eq_true, if_false]
      rw [ih (i + 1) acc dir (by omega)
        (fun j h1 h2 => hnot j (by omega) (by omega))]
      simp [producedIdx, frameCalls, hp]

/-- Characterization of `extractFrames` under zero exit codes and a
directory holding no `.txt` entries yet. -/
theorem extractFrames_spec (ext : Ext) (dir0 : List (String × String))
    (hpr : ext.probeOk = true) (hex : ∀ j, ext.frameExitOk j = true)
    (hd0 : ∀ p ∈ dir0, endsWithTxt p.1 = false) :
    extractFrames ext dir0 =
      (true,
        (producedIdx ext 0 (frameCount ext.duration)).map ext.frameData,
        dir0 ++ (producedIdx ext 0 (frameCount ext.duration)).map
          (fun j => (frameName j, ext.frameData j)),
        .ffprobe :: frameCalls ext 0 (frameCount ext.duration)) := by
  rw [extractFrames, if_pos hpr]
  rw [framesGo_spec ext hex (frameCount ext.duration) 0 [] dir0
    (by have := frameCount_le ext.duration; omega) ?_]
  · simp
  · intro j _ hj hmem
    rcases List.mem_map.mp hmem with ⟨p, hp, hpe⟩
    have h1 := hd0 p hp
    have h2 := frameName_endsWithTxt
      (i := j) (by have := frameCount_le ext.duration; omega)
    rw [hpe] at h1
    rw [h1] at h2
    exact Bool.false_ne_true h2

end VNotes

namespace VNotes

/-! Section: Reloading the persisted frame-set -/

theorem find?_skip {p : String × String → Bool}
    (l1 l2 : List (String × String)) (h : ∀ a ∈ l1, p a = false) :
    (l1 ++ l2).find? p = l2.find? p := by
  rw [List.find?_append]
  have h1 : l1.find? p = none :=
    List.find?_eq_none.mpr (fun x hx => by simp [h x hx])
  rw [h1]
  rfl

theorem find?_entries (data : ℕ → String) :
    ∀ (l : List ℕ) (j : ℕ), j ∈ l → l.Pairwise (· ≠ ·) →
      (∀ x ∈ l, x < 20) →
      (l.map (fun i => (frameName i, data i))).find?
          (fun p => p.1 == frameName j) =
        some (frameName j, data j) := by
  intro l
  induction l with
  | nil => intro j hj; simp at hj
  | cons x xs ih =>
    intro j hj hpw hlt
    rcases List.mem_cons.mp hj with hj | hj
    · subst hj
      exact List.find?_cons_of_pos _ (by simp)
    · have hne : x ≠ j := (List.pairwise_cons.mp hpw).1 j hj
      have hfe : frameName x ≠ frameName j := by
        intro hc
        exact hne (frameName_inj (hlt x (List.mem_cons_self x xs))
          (hlt j (List.mem_cons_of_mem x hj)) hc)
      rw [List.map_cons, List.find?_cons_of_neg _ (by simpa using hfe)]
      exact ih j hj (List.pairwise_cons.mp hpw).2
        (fun y hy => hlt y (List.mem_cons_of_mem x hy))

theorem loadCachedFrames_entries (data : ℕ → String) (l : List ℕ)
    (hlt : ∀ x ∈ l, x < 20) (hpw : l.Pairwise (· < ·))
    (dir0 : List (String × String))
    (hd0 : ∀ p ∈ dir0, endsWithTxt p.1 = false) :
    loadCachedFrames
        (dir0 ++ l.map (fun j => (frameName j, data j))) =
      l.map data := by
  rw [loadCachedFrames]
  have hnames :
      ((dir0 ++ l.map (fun j => (frameName j, data j))).map
        Prod.fst).filter endsWithTxt = l.map frameName := by
    rw [List.map_append, List.filter_append, List.map_map]
    have h1 : (dir0.map Prod.fst).filter endsWithTxt = [] := by
      rw [List.filter_eq_nil_iff]
      intro a ha
      rcases List.mem_map.mp ha with ⟨p, hp, hpe⟩
      simp [← hpe, hd0 p hp]
    have h2 :
        (l.map (Prod.fst ∘ fun j => (frameName j, data j))).filter
          endsWithTxt = l.map frameName := by
      have : (Prod.fst ∘ fun j => (frameName j, data j)) = frameName := rfl
      rw [this]
      apply List.filter_eq_self.mpr
      intro a ha
      rcases List.mem_map.mp ha with ⟨j, hj, hje⟩
      rw [← hje]
      exact frameName_endsWithTxt (hlt j hj)
    rw [h1, h2, List.nil_append]
  rw [hnames]
  have hsorted : List.Sorted jsLe (l.map frameName) := by
    rw [List.Sorted, List.pairwise_map]
    apply List.Pairwise.imp_of_mem ?_ hpw
    intro a b ha hb hab
    exact frameName_le hab (hlt b hb)
  rw [hsorted.insertionSort_eq]
  rw [List.map_map]
  apply List.map_congr_left
  intro j hj
  simp only [Function.comp_apply]
  rw [find?_skip _ _ ?_, find?_entries data l j hj
    (hpw.imp (fun h => Nat.ne_of_lt h)) hlt]
  · rfl
  · intro p hp
    have h1 := hd0 p hp
    rw [beq_eq_false_iff_ne]
    intro hc
    rw [hc] at h1
    rw [frameName_endsWithTxt (hlt j hj)] at h1
    exact Bool.true_eq_false ▸ h1

end VNotes

namespace VNotes

/-- Claim C10: after a sampling pass (over any set of successfully
extracted ordinals), reloading the cached frame-set returns exactly the
sequence of encoded frames the pass returned, in the same order. -/
theorem frames_persist_roundtrip (ext : Ext) (dir0 : List (String × String))
    (hpr : ext.probeOk = true) (hex : ∀ j, ext.frameExitOk j = true)
    (hd0 : ∀ p ∈ dir0, endsWithTxt p.1 = false) :
    loadCachedFrames (extractFrames ext dir0).2.2.1 =
      (extractFrames ext dir0).2.1 := by
  rw [extractFrames_spec ext dir0 hpr hex hd0]
  exact loadCachedFrames_entries ext.frameData _
    (fun x hx => by
      have h1 := producedIdx_mem ext (frameCount ext.duration) 0 x hx
      have h2 := frameCount_le ext.duration
      omega)
    (producedIdx_pairwise ext _ 0) dir0 hd0

end VNotes

namespace VNotes

/-- A fresh request on a stored video with a configured key and fully
successful tools: the response reports the produced frames and all three
cache flags false, and all three artifacts are persisted. -/
theorem POST_fresh_ok (videoId : String) (fs : FS) (ext : Ext)
    (hvid : videoId ≠ "")
    (hv : fs.videoExists = true) (k : String) (hkey : fs.apiKey = some k)
    (ha : fs.audioExists = false) (ht : fs.transcript = none)
    (hf : fs.framesDir = none)
    (hae : ext.audioExitOk = true) (hap : ext.audioProduced = true)
    (hpr : ext.probeOk = true) (hfe : ∀ j, ext.frameExitOk j = true)
    (htr : ext.transcribeOk = true) (hvo : ext.visionOk = true)
    (hao : ext.audioSumOk = true) (hfo : ext.finalOk = true) :
    (POST videoId fs ext).1 =
      .ok { videoId := videoId, summary := ext.finalText,
            visualSummary := ext.visionText,
            audioSummary := ext.audioSumText,
            frameCount :=
              (producedIdx ext 0 (frameCount ext.duration)).length,
            cachedAudio := false, cachedFrames := false,
            cachedTranscript := false } ∧
    (POST videoId fs ext).2.1 =
      { fs with audioExists := true,
                transcript := some ext.transcribeText,
                framesDir :=
                  some ((producedIdx ext 0 (frameCount ext.duration)).map
                    (fun j => (frameName j, ext.frameData j))) } := by
  have hex := extractFrames_spec ext [] hpr hfe (by simp)
  simp only [POST, runPipeline, transcriptStage, framesStage, afterFrames,
    checkCachedData, hvid, hv, hkey, ha, ht, hf, hae, hap, htr, hvo, hao,
    hfo, if_false, if_true, Option.isSome_none, Bool.false_eq_true,
    Option.getD_none, hex, if_neg, ite_false, ite_true]
  simp

/-- A request that finds all three artifacts cached and whose
summarization calls succeed: the response carries all three cache flags
true and the state is unchanged. -/
theorem POST_cached_ok (videoId : String) (fs : FS) (ext : Ext)
    (hvid : videoId ≠ "")
    (hv : fs.videoExists = true) (k : String) (hkey : fs.apiKey = some k)
    (ha : fs.audioExists = true) (t : String) (ht : fs.transcript = some t)
    (d : List (String × String)) (hfd : fs.framesDir = some d)
    (hft : d.any (fun p => endsWithTxt p.1) = true)
    (hvo : ext.visionOk = true)
    (hao : ext.audioSumOk = true) (hfo : ext.finalOk = true) :
    (POST videoId fs ext).1 =
      .ok { videoId := videoId, summary := ext.finalText,
            visualSummary := ext.visionText,
            audioSummary := ext.audioSumText,
            frameCount := (loadCachedFrames d).length,
            cachedAudio := true, cachedFrames := true,
            cachedTranscript := true } ∧
    (POST videoId fs ext).2.1 = fs := by
  simp only [POST, runPipeline, transcriptStage, framesStage, afterFrames,
    checkCachedData, hvid, hv, hkey, ha, ht, hfd, hft, hvo, hao, hfo,
    if_false, if_true, Option.isSome_some, Option.getD_some, if_neg,
    ite_false, ite_true]
  simp

end VNotes

namespace VNotes

theorem range'_map_any_txt (ext : Ext) {n : ℕ} (hn : 0 < n) :
    ((List.range' 0 n).map
      (fun j => (frameName j, ext.frameData j))).any
        (fun p => endsWithTxt p.1) = true := by
  obtain ⟨m, rfl⟩ := Nat.exists_eq_succ_of_ne_zero (Nat.pos_iff_ne_zero.mp hn)
  rw [List.range'_succ, List.map_cons, List.any_cons]
  simp [frameName_endsWithTxt (show 0 < 20 by norm_num)]

/-- Claim C2: with a stored source video, a configured credential, no
cached artifacts and deterministic succeeding tools, running the
pipeline twice yields cache flags (false,false,false) then
(true,true,true). -/
theorem pipeline_twice_cacheFlags (videoId : String) (fs : FS) (ext : Ext)
    (hvid : videoId ≠ "")
    (hv : fs.videoExists = true) (k : String) (hkey : fs.apiKey = some k)
    (ha : fs.audioExists = false) (ht : fs.transcript = none)
    (hf : fs.framesDir = none)
    (hdur : 0 < ext.duration)
    (hae : ext.audioExitOk = true) (hap : ext.audioProduced = true)
    (hpr : ext.probeOk = true) (hfe : ∀ j, ext.frameExitOk j = true)
    (hfp : ∀ j, ext.frameProduced j = true)
    (htr : ext.transcribeOk = true) (hvo : ext.visionOk = true)
    (hao : ext.audioSumOk = true) (hfo : ext.finalOk = true) :
    (POST videoId fs ext).1.cacheFlags = some (false, false, false) ∧
    (POST videoId (POST videoId fs ext).2.1 ext).1.cacheFlags =
      some (true, true, true) := by
  obtain ⟨h1, h2⟩ := POST_fresh_ok videoId fs ext hvid hv k hkey ha ht hf
    hae hap hpr hfe htr hvo hao hfo
  refine ⟨by rw [h1]; rfl, ?_⟩
  rw [h2]
  have hany :
      ((producedIdx ext 0 (frameCount ext.duration)).map
        (fun j => (frameName j, ext.frameData j))).any
          (fun p => endsWithTxt p.1) = true := by
    rw [producedIdx_of_all ext hfp]
    exact range'_map_any_txt ext (frameCount_pos hdur)
  have h3 := POST_cached_ok videoId
    { fs with audioExists := true,
              transcript := some ext.transcribeText,
              framesDir :=
                some ((producedIdx ext 0 (frameCount ext.duration)).map
                  (fun j => (frameName j, ext.frameData j))) }
    ext hvid hv k hkey rfl ext.transcribeText rfl _ rfl hany hvo hao hfo
  rw [h3.1]
  rfl

/-- Stub behaviour with every external tool and service succeeding and a
95-second video. -/
def extAll : Ext where
  audioExitOk := true
  audioProduced := true
  probeOk := true
  duration := 95
  frameExitOk := fun _ => true
  frameProduced := fun _ => true
  frameData := fun i => toString i
  transcribeOk := true
  transcribeText := "hello transcript"
  visionOk := true
  visionText := "visual summary"
  audioSumOk := true
  audioSumText := "audio summary"
  finalOk := true
  finalText := "final summary"

/-- A filesystem state with the source video stored, a key configured
and no cached artifacts. -/
def fsFresh : FS where
  videoExists := true
  apiKey := some "sk-test"
  audioExists := false
  transcript := none
  framesDir := none

/-- Witness for C2 on a fresh 95-second video with succeeding stubs. -/
theorem pipeline_twice_cacheFlags_witness :
    (POST "vid" fsFresh extAll).1.cacheFlags = some (false, false, false) ∧
    (POST "vid" (POST "vid" fsFresh extAll).2.1 extAll).1.cacheFlags =
      some (true, true, true) :=
  pipeline_twice_cacheFlags "vid" fsFresh extAll (by decide) rfl "sk-test"
    rfl rfl rfl rfl (by norm_num [extAll]) rfl rfl rfl (fun _ => rfl)
    (fun _ => rfl) rfl rfl rfl rfl

end VNotes

namespace VNotes

/-- Stub behaviour like `extAll` (95-second video, 10-frame schedule)
except that the frame extractions at ordinals 2, 5 and 8 silently
produce no file. -/
def ext7 : Ext :=
  { extAll with frameProduced := fun i => !(i == 2 || i == 5 || i == 8) }

/-- Claim C7: a scheduled frame whose extraction tool runs but produces
no file is skipped without aborting the pass and without error, so the
pass returns one frame per produced ordinal; in particular a
10-timestamp schedule with 7 successful extractions completes with
frameCount 7 and a success response. -/
theorem frame_miss_skipped :
    (∀ (ext : Ext) (dir0 : List (String × String)),
        ext.probeOk = true → (∀ j, ext.frameExitOk j = true) →
        (∀ p ∈ dir0, endsWithTxt p.1 = false) →
        (extractFrames ext dir0).1 = true ∧
          (extractFrames ext dir0).2.1.length =
            ((List.range' 0 (frameCount ext.duration)).filter
              (fun j => ext.frameProduced j)).length) ∧
    (POST "vid" fsFresh ext7).1 =
      .ok { videoId := "vid", summary := "final summary",
            visualSummary := "visual summary",
            audioSummary := "audio summary",
            frameCount := 7, cachedAudio := false, cachedFrames := false,
            cachedTranscript := false } := by
  constructor
  · intro ext dir0 hpr hex hd0
    rw [extractFrames_spec ext dir0 hpr hex hd0]
    constructor
    · rfl
    · simp [producedIdx_eq_filter]
  · have h1 := (POST_fresh_ok "vid" fsFresh ext7 (by decide) rfl "sk-test"
      rfl rfl rfl rfl rfl rfl rfl (fun _ => rfl) rfl rfl rfl rfl).1
    rw [h1]
    have hfc : frameCount ext7.duration = 10 := by
      rw [show ext7.duration = 95 from rfl, frameCount_95]
    rw [hfc]
    rfl

/-- Witness for C7: the general part applied to the 7-of-10 stub. -/
theorem frame_miss_skipped_witness :
    (extractFrames ext7 []).1 = true ∧
      (extractFrames ext7 []).2.1.length =
        ((List.range' 0 (frameCount ext7.duration)).filter
          (fun j => ext7.frameProduced j)).length :=
  frame_miss_skipped.1 ext7 [] rfl (fun _ => rfl) (by simp)

/-- Accessor for the reported source-video presence of a `GET`
response. -/
def GetResponse.videoFlag : GetResponse → Option Bool
  | .err _ => none
  | .ok _ ve _ _ _ _ _ _ => some ve

/-- Claim C4: when the source video is absent, `POST` fails with the
not-found kind (HTTP 404), makes no external invocation, writes nothing,
and `GET` reports the video as absent. -/
theorem missing_video_404 (videoId : String) (fs : FS) (ext : Ext)
    (hvid : videoId ≠ "") (hv : fs.videoExists = false) :
    POST videoId fs ext = (.err .notFound, fs, []) ∧
    ErrKind.notFound.statusCode = 404 ∧
    (GET videoId fs).videoFlag = some false := by
  refine ⟨?_, rfl, ?_⟩
  · simp [POST, hvid, hv]
  · simp [GET, hvid, GetResponse.videoFlag, hv]

/-- A state with no stored source video. -/
def fsNoVideo : FS := { fsFresh with videoExists := false }

/-- Witness for C4. -/
theorem missing_video_404_witness :
    POST "vid" fsNoVideo extAll = (.err .notFound, fsNoVideo, []) ∧
    ErrKind.notFound.statusCode = 404 ∧
    (GET "vid" fsNoVideo).videoFlag = some false :=
  missing_video_404 "vid" fsNoVideo extAll (by decide) rfl

/-- Claim C5: when the video is present but no credential is configured,
`POST` fails with the unconfigured kind before any stage work: no
external tool or service is invoked and no artifact is written. -/
theorem missing_key_unconfigured (videoId : String) (fs : FS) (ext : Ext)
    (hvid : videoId ≠ "") (hv : fs.videoExists = true)
    (hk : fs.apiKey = none) :
    POST videoId fs ext = (.err .unconfigured, fs, []) ∧
    ErrKind.unconfigured.statusCode = 400 := by
  refine ⟨?_, rfl⟩
  simp [POST, hvid, hv, hk]

/-- A state with the video stored but no key configured. -/
def fsNoKey : FS := { fsFresh with apiKey := none }

/-- Witness for C5. -/
theorem missing_key_unconfigured_witness :
    POST "vid" fsNoKey extAll = (.err .unconfigured, fsNoKey, []) ∧
    ErrKind.unconfigured.statusCode = 400 :=
  missing_key_unconfigured "vid" fsNoKey extAll (by decide) rfl rfl

end VNotes

namespace VNotes

/-- The image URL carried by an image content part, if any. -/
def imgUrl : ContentPart → Option String
  | .image u => some u
  | .text _ => none

theorem visualContent_images (frames : List String) :
    (visualContent frames).filterMap imgUrl =
      (frames.take 10).map
        (fun f => "data:image/jpeg;base64," ++ f) := by
  rw [visualContent, List.filterMap_cons]
  simp only [imgUrl]
  rw [List.filterMap_map]
  have : (imgUrl ∘ fun frame =>
      ContentPart.image ("data:image/jpeg;base64," ++ frame)) =
    (fun frame => some ("data:image/jpeg;base64," ++ frame)) := rfl
  rw [this]
  induction frames.take 10 with
  | nil => rfl
  | cons x xs ih => rw [List.filterMap_cons, List.map_cons]; simp [ih]

/-- Claim C3: the multimodal completion call receives at most the first
10 frames, in order: the image parts of its content are exactly the
first 10 frames (so never more than 10), and the i-th image is the i-th
frame. -/
theorem vision_truncates_frames (frames : List String) :
    ((visualContent frames).filterMap imgUrl).length ≤ 10 ∧
    (visualContent frames).filterMap imgUrl =
      (frames.take 10).map
        (fun f => "data:image/jpeg;base64," ++ f) ∧
    ∀ i, i < 10 →
      ((visualContent frames).filterMap imgUrl).get? i =
        (frames.get? i).map
          (fun f => "data:image/jpeg;base64," ++ f) := by
  refine ⟨?_, visualContent_images frames, ?_⟩
  · rw [visualContent_images frames, List.length_map, List.length_take]
    omega
  · intro i hi
    rw [visualContent_images frames, List.get?_map, List.get?_take hi]

/-- Witness for C3 on a 12-frame sequence. -/
theorem vision_truncates_frames_witness :
    ((visualContent ["f0", "f1", "f2", "f3", "f4", "f5", "f6", "f7",
      "f8", "f9", "f10", "f11"]).filterMap imgUrl).length ≤ 10 :=
  (vision_truncates_frames _).1

/-- Claim C8: the frame-set existence check is true iff the directory
exists and holds at least one `.txt` entry; in particular any single
completed item makes the set count as fully cached. -/
theorem hasFrames_iff (fs : FS) :
    ((checkCachedData fs).hasFrames = true ↔
      ∃ d, fs.framesDir = some d ∧ ∃ p ∈ d, endsWithTxt p.1 = true) ∧
    ∀ name content : String, endsWithTxt name = true →
      (checkCachedData
        { fs with framesDir := some [(name, content)] }).hasFrames =
        true := by
  constructor
  · cases hfd : fs.framesDir with
    | none => simp [checkCachedData, hfd]
    | some d => simp [checkCachedData, hfd, List.any_eq_true]
  · intro name content h
    simp [checkCachedData, h]

/-- Witness for C8: a directory with the single completed item
`frame_000.txt` counts as cached. -/
theorem hasFrames_iff_witness :
    (checkCachedData
      { fsFresh with
          framesDir := some [("frame_000.txt", "payload")] }).hasFrames =
      true :=
  (hasFrames_iff fsFresh).2 "frame_000.txt" "payload" (by decide)

end VNotes

namespace VNotes

/-! Section: Trace and error-shape lemmas for the later stages -/

theorem afterFrames_calls (v : String) (fs : FS) (ext : Ext)
    (cached : Cached) (t : String) (fr : List String)
    (calls : List ExtCall) :
    ∃ cs, (afterFrames v fs ext cached t fr calls).2.2 = calls ++ cs ∧
      ExtCall.ffmpegAudio ∉ cs := by
  simp only [afterFrames]
  split_ifs
  · exact ⟨[.chatVision (visualContent fr), .chatAudio t,
      .chatFinal ext.visionText ext.audioSumText], by simp, by simp⟩
  · exact ⟨[.chatVision (visualContent fr), .chatAudio t,
      .chatFinal ext.visionText ext.audioSumText], by simp, by simp⟩
  · exact ⟨[.chatVision (visualContent fr), .chatAudio t], by simp, by simp⟩
  · exact ⟨[.chatVision (visualContent fr)], by simp, by simp⟩

theorem framesGo_calls_noAudio (ext : Ext) :
    ∀ k i acc dir, ExtCall.ffmpegAudio ∉ (framesGo ext i k acc dir).2.2.2 := by
  intro k
  induction k with
  | zero => intro i acc dir; simp [framesGo]
  | succ k ih =>
    intro i acc dir
    rw [framesGo]
    rcases Bool.eq_false_or_eq_true (ext.frameExitOk i) with he | he
    · rcases Bool.eq_false_or_eq_true (ext.frameProduced i) with hp | hp
      · simp only [he, if_pos rfl, hp]
        simp [ih]
      · simp only [he, if_pos rfl, hp, Bool.false_eq_true, if_false]
        simp [ih]
    · simp [he]

theorem extractFrames_calls_noAudio (ext : Ext)
    (dir0 : List (String × String)) :
    ExtCall.ffmpegAudio ∉ (extractFrames ext dir0).2.2.2 := by
  rw [extractFrames]
  rcases Bool.eq_false_or_eq_true ext.probeOk with hp | hp
  · simp [hp, framesGo_calls_noAudio]
  · simp [hp]

theorem framesStage_calls (v : String) (fs : FS) (ext : Ext)
    (cached : Cached) (t : String) (calls : List ExtCall) :
    ∃ cs, (framesStage v fs ext cached t calls).2.2 = calls ++ cs ∧
      ExtCall.ffmpegAudio ∉ cs := by
  simp only [framesStage]
  split_ifs with h1 h2
  · exact afterFrames_calls _ _ _ _ _ _ _
  · obtain ⟨cs, hcs, hna⟩ := afterFrames_calls v
      { fs with framesDir := some (extractFrames ext
          (fs.framesDir.getD [])).2.2.1 }
      ext cached t (extractFrames ext (fs.framesDir.getD [])).2.1
      (calls ++ (extractFrames ext (fs.framesDir.getD [])).2.2.2)
    refine ⟨(extractFrames ext (fs.framesDir.getD [])).2.2.2 ++ cs, ?_, ?_⟩
    · rw [hcs, List.append_assoc]
    · intro hc
      rcases List.mem_append.mp hc with hc | hc
      · exact extractFrames_calls_noAudio ext _ hc
      · exact hna hc
  · exact ⟨(extractFrames ext (fs.framesDir.getD [])).2.2.2, rfl,
      extractFrames_calls_noAudio ext _⟩

theorem transcriptStage_calls (v : String) (fs : FS) (ext : Ext)
    (cached : Cached) (calls : List ExtCall) :
    ∃ cs, (transcriptStage v fs ext cached calls).2.2 = calls ++ cs ∧
      ExtCall.ffmpegAudio ∉ cs := by
  simp only [transcriptStage]
  split_ifs with h1 h2 h3
  · exact framesStage_calls _ _ _ _ _ _
  · obtain ⟨cs, hcs, hna⟩ := framesStage_calls v
      { fs with transcript := some ext.transcribeText } ext cached
      ext.transcribeText (calls ++ [.whisper])
    refine ⟨[ExtCall.whisper] ++ cs, ?_, ?_⟩
    · rw [hcs, List.append_assoc]
    · intro hc
      rcases List.mem_append.mp hc with hc | hc
      · simp at hc
      · exact hna hc
  · exact ⟨[.whisper], rfl, by simp⟩
  · exact ⟨[], by simp, by simp⟩

theorem afterFrames_ne_audioFail (v : String) (fs : FS) (ext : Ext)
    (cached : Cached) (t : String) (fr : List String)
    (calls : List ExtCall) :
    (afterFrames v fs ext cached t fr calls).1 ≠
      .err (.internal audioFailMsg) := by
  simp only [afterFrames]
  split_ifs <;>
    simp [visionFailMsg, audioSumFailMsg, finalFailMsg, audioFailMsg]

theorem framesStage_ne_audioFail (v : String) (fs : FS) (ext : Ext)
    (cached : Cached) (t : String) (calls : List ExtCall) :
    (framesStage v fs ext cached t calls).1 ≠
      .err (.internal audioFailMsg) := by
  simp only [framesStage]
  split_ifs
  · exact afterFrames_ne_audioFail _ _ _ _ _ _ _
  · exact afterFrames_ne_audioFail _ _ _ _ _ _ _
  · simp [frameFailMsg, audioFailMsg]

theorem transcriptStage_ne_audioFail (v : String) (fs : FS) (ext : Ext)
    (cached : Cached) (calls : List ExtCall) :
    (transcriptStage v fs ext cached calls).1 ≠
      .err (.internal audioFailMsg) := by
  simp only [transcriptStage]
  split_ifs
  · exact framesStage_ne_audioFail _ _ _ _ _ _
  · exact framesStage_ne_audioFail _ _ _ _ _ _
  · simp [whisperFailMsg, audioFailMsg]
  · simp [enoentMsg, audioFailMsg]

end VNotes

namespace VNotes

/-- Witness for C10: round trip on the 7-of-10 sampling pass. -/
theorem frames_persist_roundtrip_witness :
    loadCachedFrames (extractFrames ext7 []).2.2.1 =
      (extractFrames ext7 []).2.1 :=
  frames_persist_roundtrip ext7 [] rfl (fun _ => rfl) (by simp)

/-- Stub behaviour whose ffmpeg audio extraction exits non-zero and
leaves no output file. -/
def extFailA : Ext := { extAll with audioExitOk := false,
                                    audioProduced := false }

/-- Counterexample to C6 as stated: after a failed audio extraction
that left no file, the identical retry runs ffmpeg audio extraction
again (its whole trace is that extraction call) instead of serving
audio from cache and proceeding to the transcript stage. -/
theorem extraction_retry_cex :
    (POST "vid" fsFresh extFailA).1 = .err (.internal audioFailMsg) ∧
    (POST "vid" (POST "vid" fsFresh extFailA).2.1 extFailA).2.2 =
      [.ffmpegAudio] := by
  exact ⟨rfl, rfl⟩

/-- Claim C6 (amended): an audio-extraction error aborts the run before
the transcript and frame stages (the trace is the single extraction
call) and is surfaced; the identical retry skips extraction and
proceeds to the transcript stage iff the failed tool invocation left an
output file, and otherwise re-attempts extraction. -/
theorem extraction_error_aborts (videoId : String) (fs : FS) (ext : Ext)
    (hvid : videoId ≠ "") (hv : fs.videoExists = true) (k : String)
    (hkey : fs.apiKey = some k) (ha : fs.audioExists = false)
    (ht : fs.transcript = none) (hfail : ext.audioExitOk = false) :
    POST videoId fs ext =
      (.err (.internal audioFailMsg),
        { fs with audioExists := ext.audioProduced }, [.ffmpegAudio]) ∧
    (ext.audioProduced = true →
      ∃ rest,
        (POST videoId { fs with audioExists := ext.audioProduced }
          ext).2.2 = ExtCall.whisper :: rest ∧
        ExtCall.ffmpegAudio ∉ rest) ∧
    (ext.audioProduced = false →
      ExtCall.ffmpegAudio ∈
        (POST videoId { fs with audioExists := ext.audioProduced }
          ext).2.2) := by
  refine ⟨?_, ?_, ?_⟩
  · simp [POST, runPipeline, checkCachedData, hvid, hv, hkey, ha, hfail]
  · intro hap
    rw [hap]
    have hpost :
        POST videoId { fs with audioExists := true } ext =
          transcriptStage videoId { fs with audioExists := true } ext
            (checkCachedData { fs with audioExists := true }) [] := by
      simp [POST, runPipeline, checkCachedData, hvid, hv, hkey]
    rw [hpost]
    have hht : (checkCachedData
        { fs with audioExists := true }).hasTranscript = false := by
      simp [checkCachedData, ht]
    rcases Bool.eq_false_or_eq_true ext.transcribeOk with htr | htr
    · obtain ⟨cs, hcs, hna⟩ := framesStage_calls videoId
        { fs with audioExists := true,
                  transcript := some ext.transcribeText } ext
        (checkCachedData { fs with audioExists := true })
        ext.transcribeText [.whisper]
      refine ⟨cs, ?_, hna⟩
      simp only [transcriptStage, hht, Bool.false_eq_true, if_false,
        if_pos rfl, htr] at hcs ⊢
      simp only [List.nil_append] at hcs ⊢
      exact hcs
    · refine ⟨[], ?_, by simp⟩
      simp [transcriptStage, hht, htr]
  · intro hap
    rw [hap]
    have : POST videoId { fs with audioExists := false } ext =
        (.err (.internal audioFailMsg),
          { fs with audioExists := ext.audioProduced },
          [.ffmpegAudio]) := by
      simp [POST, runPipeline, checkCachedData, hvid, hv, hkey, hfail]
    rw [this]
    simp

/-- Witness for the amended C6 at the concrete failing stub. -/
theorem extraction_error_aborts_witness :
    POST "vid" fsFresh extFailA =
      (.err (.internal audioFailMsg),
        { fsFresh with audioExists := extFailA.audioProduced },
        [.ffmpegAudio]) :=
  (extraction_error_aborts "vid" fsFresh extFailA (by decide) rfl
    "sk-test" rfl rfl rfl rfl).1

/-- Stub behaviour whose ffmpeg audio extraction exits zero yet leaves
no output file. -/
def extNoFile : Ext := { extAll with audioProduced := false }

/-- Counterexample to C9 as stated: the tool exits zero and produces no
output file, yet the run does not fail with the extraction error — the
missing audio surfaces later, at the transcription stage. -/
theorem extraction_no_output_cex :
    extNoFile.audioExitOk = true ∧ extNoFile.audioProduced = false ∧
    (POST "vid" fsFresh extNoFile).1 = .err (.internal enoentMsg) ∧
    enoentMsg ≠ audioFailMsg := by
  exact ⟨rfl, rfl, rfl, by decide⟩

/-- Claim C9 (amended): on a run with no cached audio, the request
fails with the extraction error iff the tool exits non-zero; a tool run
that exits zero without producing a file passes the extraction stage,
and the missing audio surfaces at the transcription stage. -/
theorem extraction_error_iff (videoId : String) (fs : FS) (ext : Ext)
    (hvid : videoId ≠ "") (hv : fs.videoExists = true) (k : String)
    (hkey : fs.apiKey = some k) (ha : fs.audioExists = false) :
    ((POST videoId fs ext).1 = .err (.internal audioFailMsg) ↔
      ext.audioExitOk = false) ∧
    (ext.audioExitOk = true → ext.audioProduced = false →
      fs.transcript = none →
      (POST videoId fs ext).1 = .err (.internal enoentMsg) ∧
      (POST videoId fs ext).2.2 = [.ffmpegAudio]) := by
  constructor
  · rcases Bool.eq_false_or_eq_true ext.audioExitOk with hae | hae
    · have hne : (POST videoId fs ext).1 ≠
          .err (.internal audioFailMsg) := by
        have hpost : POST videoId fs ext =
            transcriptStage videoId
              { fs with audioExists := ext.audioProduced } ext
              (checkCachedData fs) [.ffmpegAudio] := by
          simp [POST, runPipeline, checkCachedData, hvid, hv, hkey, ha,
            hae]
        rw [hpost]
        exact transcriptStage_ne_audioFail _ _ _ _ _
      simp [hne, hae]
    · have hpost : (POST videoId fs ext).1 =
          .err (.internal audioFailMsg) := by
        simp [POST, runPipeline, checkCachedData, hvid, hv, hkey, ha,
          hae]
      simp [hpost, hae]
  · intro hae hap ht
    have hpost : POST videoId fs ext =
        (.err (.internal enoentMsg),
          { fs with audioExists := ext.audioProduced },
          [.ffmpegAudio]) := by
      simp [POST, runPipeline, transcriptStage, checkCachedData, hvid,
        hv, hkey, ha, hae, hap, ht]
    rw [hpost]
    exact ⟨rfl, rfl⟩

/-- Witness for the amended C9 at the concrete zero-exit, no-file
stub. -/
theorem extraction_error_iff_witness :
    ((POST "vid" fsFresh extNoFile).1 = .err (.internal audioFailMsg) ↔
      extNoFile.audioExitOk = false) :=
  (extraction_error_iff "vid" fsFresh extNoFile (by decide) rfl
    "sk-test" rfl rfl).1

end VNotes
